import Mathlib

/-!
Verification of the S3P archive packer/extractor (`s3p_extract.py`).

The program packs an ordered list of input files into one archive
(header, entry table, wrapped payload records, end marker) and extracts
such archives back into individual files.  Files and archives are
modelled as lists of byte values (`List Nat`); filesystem effects of
the extractor are modelled explicitly where a claim is about them.
-/

namespace S3P

/-- Archive-level magic tag, the bytes of `b"S3P0"`. -/
def S3P_MAGIC : List Nat := [83, 51, 80, 48]

/-- Payload-record magic tag, the bytes of `b"S3V0"`. -/
def S3V_MAGIC : List Nat := [83, 51, 86, 48]

/-- Trailing end-marker constant written by the packer. -/
def END_MARKER : Nat := 0x12345678

/-- Largest value representable in an unsigned 32-bit field. -/
def U32_MAX : Nat := 0xFFFFFFFF

/-- Little-endian serialization of an unsigned 32-bit value
(`struct.pack "<I"`). -/
def u32le (n : Nat) : List Nat :=
  [n % 256, n / 256 % 256, n / 65536 % 256, n / 16777216 % 256]

/-- Little-endian decoding of a 4-byte list (`struct.unpack "<I"`);
any malformed argument decodes to 0 (never reached under the decoder's
bounds guards). -/
def u32dec : List Nat → Nat
  | [b0, b1, b2, b3] => b0 + 256 * b1 + 65536 * b2 + 16777216 * b3
  | _ => 0

/-- Contiguous byte slice `l[s : s+n]` of a byte list, with Python's
clamping semantics for a range reaching past the end. -/
def slice (l : List Nat) (s n : Nat) : List Nat := (l.drop s).take n

/-- Wrapper record written for one input file:
`S3V0_STRUCT.pack(S3V_MAGIC, 0x20, src_size, b"\x00"*20)` followed by the
file's raw bytes. -/
def record_bytes (f : List Nat) : List Nat :=
  S3V_MAGIC ++ u32le 0x20 ++ u32le f.length ++ List.replicate 20 0 ++ f

/-- Archive header: `HEADER_STRUCT.pack(S3P_MAGIC, infile_count)`. -/
def header_bytes (n : Nat) : List Nat := S3P_MAGIC ++ u32le n

/-- Serialized entry table: consecutive `(offset, length)` pairs, each
as two little-endian u32 fields (`ENTRY_STRUCT`). -/
def table_bytes : List (Nat × Nat) → List Nat
  | [] => []
  | (o, l) :: rest => u32le o ++ u32le l ++ table_bytes rest

/-- Errors raised by `pack`: the `struct.error` on an entry count too
large for the header field, and the two explicit `ValueError`s
("File too large for S3V0 length field" and
"Archive exceeds 32-bit offset/length limits"). -/
inductive PackError
  | countOverflow
  | fileTooLarge
  | offsetLengthOverflow
deriving DecidableEq

/-- Body-writing loop of `pack`: given the remaining input files and the
current write cursor, returns the bytes written for payload records
(also the partial bytes present when the loop aborts) together with
either the accumulated `(offset, length)` entries or the first error.
Mirrors the source's order of checks: a file's size is checked before
its record is written; the offset/length limit is checked after. -/
def pack_loop : List (List Nat) → Nat → List Nat × Except PackError (List (Nat × Nat))
  | [], _ => ([], .ok [])
  | f :: rest, cursor =>
    if U32_MAX < f.length then ([], .error .fileTooLarge)
    else if U32_MAX < cursor ∨ U32_MAX < (record_bytes f).length then
      (record_bytes f, .error .offsetLengthOverflow)
    else
      (record_bytes f ++ (pack_loop rest (cursor + (record_bytes f).length)).1,
       (pack_loop rest (cursor + (record_bytes f).length)).2.map
         (fun es => (cursor, (record_bytes f).length) :: es))

/-- Whole `pack` run: returns the bytes present in the output file when
the function returns or raises, together with the outcome.  On success
the placeholder entry table has been overwritten with the real one and
the end marker appended; on a loop failure the file still holds the
header, the zero-filled placeholder table and the records written so
far. -/
def pack_run (infiles : List (List Nat)) : List Nat × Except PackError Unit :=
  if U32_MAX < infiles.length then ([], .error .countOverflow)
  else
    match pack_loop infiles (8 + 8 * infiles.length) with
    | (w, .error e) =>
        (header_bytes infiles.length ++ List.replicate (8 * infiles.length) 0 ++ w,
         .error e)
    | (w, .ok entries) =>
        (header_bytes infiles.length ++ table_bytes entries ++ w ++ u32le END_MARKER,
         .ok ())

/-- Bytes of the archive produced by `pack`, or the first error. -/
def pack (infiles : List (List Nat)) : Except PackError (List Nat) :=
  match pack_run infiles with
  | (w, .ok _) => .ok w
  | (_, .error e) => .error e

/-- Errors raised by `_extract_one`: the three `ValueError`s for an
entry outside the file bounds, a wrong record magic (carrying the
offending four bytes), and an invalid `filestart`. -/
inductive ExtractError
  | outOfBounds
  | badMagic (got : List Nat)
  | invalidLayout
deriving DecidableEq

/-- Decoder of `_extract_one` (the value computation): validates the
`(offset, length)` entry against the mapped archive `mm` and returns
the payload bytes that the function writes to the output file. -/
def extract_one (mm : List Nat) (offset length : Int) : Except ExtractError (List Nat) :=
  if offset < 0 ∨ length < 32 ∨ (mm.length : Int) < offset + length then
    .error .outOfBounds
  else
    let off := offset.toNat
    if slice mm off 4 ≠ S3V_MAGIC then .error (.badMagic (slice mm off 4))
    else
      let filestart := u32dec (slice mm (off + 4) 4)
      let data_start := off + filestart
      let data_end := off + length.toNat
      if data_end < data_start then .error .invalidLayout
      else .ok (slice mm data_start (data_end - data_start))

/-- Filesystem effects performed by `_extract_one` for one entry. -/
inductive FsEffect
  | mkdirParents
  | writeFile (data : List Nat)
deriving DecidableEq

/-- Effect-level run of `_extract_one`: the ordered filesystem effects
the call performs, together with its outcome.  The directory creation
and the output-file write sit after every validation check in the
source, so a failing entry performs no effect. -/
def extract_one_run (mm : List Nat) (offset length : Int) :
    List FsEffect × Except ExtractError Unit :=
  if offset < 0 ∨ length < 32 ∨ (mm.length : Int) < offset + length then
    ([], .error .outOfBounds)
  else
    let off := offset.toNat
    if slice mm off 4 ≠ S3V_MAGIC then ([], .error (.badMagic (slice mm off 4)))
    else
      let filestart := u32dec (slice mm (off + 4) 4)
      let data_start := off + filestart
      let data_end := off + length.toNat
      if data_end < data_start then ([], .error .invalidLayout)
      else ([.mkdirParents, .writeFile (slice mm data_start (data_end - data_start))], .ok ())

/-- Errors raised by `convert`: the two `ValueError`s of the archive
checks, plus a propagated per-entry failure. -/
inductive ConvertError
  | tooSmall
  | badArchiveMagic
  | entryTableTruncated
  | entryFailed (e : ExtractError)
deriving DecidableEq

/-- Output filename for the 1-based entry index `i`: the Python format
string `f"{i:04d}"`, zero-padded to at least four digits. -/
def pad4 (i : Nat) : String :=
  let s := toString i
  if s.length < 4 then String.mk (List.replicate (4 - s.length) '0') ++ s else s

/-- Full output filename `f"{i:04d}.wav"` of entry `i`. -/
def entry_name (i : Nat) : String := pad4 i ++ ".wav"

/-- Decoding of the entry-table region into `(offset, length)` pairs
(`ENTRY_STRUCT.iter_unpack`); the region always has length a multiple
of eight when reached. -/
def decode_table : List Nat → List (Nat × Nat)
  | b0 :: b1 :: b2 :: b3 :: b4 :: b5 :: b6 :: b7 :: rest =>
      (u32dec [b0, b1, b2, b3], u32dec [b4, b5, b6, b7]) :: decode_table rest
  | _ => []

/-- Per-entry loop of `convert`: extracts each table entry in order with
its 1-based index, collecting `(filename, payload)` pairs, and aborts
on the first failing entry. -/
def run_entries (mm : List Nat) : List (Nat × Nat) → Nat → Except ConvertError (List (String × List Nat))
  | [], _ => .ok []
  | (offset, length) :: rest, i =>
    ((extract_one mm (offset : Int) (length : Int)).mapError ConvertError.entryFailed).bind
      (fun payload => (run_entries mm rest (i + 1)).map (fun out => (entry_name i, payload) :: out))

/-- Extractor `convert`: validates the archive header and entry table of
the mapped bytes `mm`, then extracts every entry; returns the list of
`(filename, payload)` output files. -/
def convert (mm : List Nat) : Except ConvertError (List (String × List Nat)) :=
  if mm.length < 8 then .error .tooSmall
  else if slice mm 0 4 ≠ S3P_MAGIC then .error .badArchiveMagic
  else
    let entries_count := u32dec (slice mm 4 4)
    if mm.length < 8 + entries_count * 8 then .error .entryTableTruncated
    else run_entries mm (decode_table (slice mm 8 (entries_count * 8))) 1

/-- Concatenated payload records written for the given files, in order. -/
def body_of : List (List Nat) → List Nat
  | [] => []
  | f :: fs => record_bytes f ++ body_of fs

/-- Entry-table pairs the packer accumulates when writing the given
files starting at write cursor `c`. -/
def entries_of : List (List Nat) → Nat → List (Nat × Nat)
  | [], _ => []
  | f :: fs, c => (c, 32 + f.length) :: entries_of fs (c + (32 + f.length))

/-- Expected extractor output for the given files with 1-based numbering
starting at `i`. -/
def extracted_pairs : Nat → List (List Nat) → List (String × List Nat)
  | _, [] => []
  | i, f :: fs => (entry_name i, f) :: extracted_pairs (i + 1) fs

/-! Basic length and serialization lemmas. -/

lemma u32dec_u32le {n : Nat} (h : n < 4294967296) : u32dec (u32le n) = n := by
  simp only [u32le, u32dec]
  omega

lemma record_bytes_length (f : List Nat) : (record_bytes f).length = 32 + f.length := by
  simp [record_bytes, S3V_MAGIC, u32le]
  omega

lemma table_bytes_length (es : List (Nat × Nat)) : (table_bytes es).length = 8 * es.length := by
  induction es with
  | nil => rfl
  | cons p rest ih =>
    obtain ⟨o, l⟩ := p
    simp [table_bytes, u32le, ih]
    omega

lemma entries_of_length (fs : List (List Nat)) (c : Nat) :
    (entries_of fs c).length = fs.length := by
  induction fs generalizing c with
  | nil => rfl
  | cons f rest ih => simp [entries_of, ih]

lemma extracted_pairs_snd (fs : List (List Nat)) (i : Nat) :
    (extracted_pairs i fs).map Prod.snd = fs := by
  induction fs generalizing i with
  | nil => rfl
  | cons f rest ih => simp [extracted_pairs, ih]

/-! Slice decomposition lemmas. -/

lemma slice_length {l : List Nat} {s n : Nat} (h : s + n ≤ l.length) :
    (slice l s n).length = n := by
  simp [slice, List.length_take, List.length_drop]
  omega

lemma slice_split (l : List Nat) (s m k : Nat) :
    slice l s (m + k) = slice l s m ++ slice l (s + m) k := by
  show (List.take (m + k) (l.drop s)) = _
  rw [List.take_add, List.drop_drop]
  rfl

lemma slice_eq_append {l a b : List Nat} {c n : Nat}
    (hn : c + n ≤ l.length) (h : slice l c n = a ++ b) :
    slice l c a.length = a ∧ slice l (c + a.length) (n - a.length) = b := by
  have h1 : (slice l c n).length = n := slice_length hn
  have h2 : n = a.length + b.length := by
    rw [h] at h1
    simp [List.length_append] at h1
    omega
  have h3 : slice l c a.length ++ slice l (c + a.length) b.length = a ++ b := by
    rw [← slice_split, ← h2, h]
  have h4 := List.append_inj h3 (slice_length (by omega))
  refine ⟨h4.1, ?_⟩
  have h5 : n - a.length = b.length := by omega
  rw [h5]
  exact h4.2

lemma slice_exact {l p a : List Nat} (rest : List Nat) (h : l = p ++ a ++ rest)
    {c n : Nat} (hc : c = p.length) (hn : n = a.length) : slice l c n = a := by
  subst h hc hn
  rw [List.append_assoc]
  show ((p ++ (a ++ rest)).drop p.length).take a.length = a
  rw [List.drop_left, List.take_left]

/-! Unfolding lemmas presenting `extract_one` and `convert` without
intermediate `let` bindings. -/

lemma extract_one_eq (mm : List Nat) (offset length : Int) :
    extract_one mm offset length =
      if offset < 0 ∨ length < 32 ∨ (mm.length : Int) < offset + length then
        .error .outOfBounds
      else if slice mm offset.toNat 4 ≠ S3V_MAGIC then
        .error (.badMagic (slice mm offset.toNat 4))
      else if offset.toNat + length.toNat <
          offset.toNat + u32dec (slice mm (offset.toNat + 4) 4) then
        .error .invalidLayout
      else
        .ok (slice mm (offset.toNat + u32dec (slice mm (offset.toNat + 4) 4))
          (offset.toNat + length.toNat -
            (offset.toNat + u32dec (slice mm (offset.toNat + 4) 4)))) := rfl

lemma extract_one_run_eq (mm : List Nat) (offset length : Int) :
    extract_one_run mm offset length =
      if offset < 0 ∨ length < 32 ∨ (mm.length : Int) < offset + length then
        ([], .error .outOfBounds)
      else if slice mm offset.toNat 4 ≠ S3V_MAGIC then
        ([], .error (.badMagic (slice mm offset.toNat 4)))
      else if offset.toNat + length.toNat <
          offset.toNat + u32dec (slice mm (offset.toNat + 4) 4) then
        ([], .error .invalidLayout)
      else
        ([.mkdirParents,
          .writeFile (slice mm (offset.toNat + u32dec (slice mm (offset.toNat + 4) 4))
            (offset.toNat + length.toNat -
              (offset.toNat + u32dec (slice mm (offset.toNat + 4) 4))))],
         .ok ()) := rfl

lemma convert_eq (mm : List Nat) :
    convert mm =
      if mm.length < 8 then .error .tooSmall
      else if slice mm 0 4 ≠ S3P_MAGIC then .error .badArchiveMagic
      else if mm.length < 8 + u32dec (slice mm 4 4) * 8 then .error .entryTableTruncated
      else run_entries mm (decode_table (slice mm 8 (u32dec (slice mm 4 4) * 8))) 1 := rfl

/-! Analysis of the packer loop. -/

lemma pack_loop_ok {fs : List (List Nat)} {c : Nat} {w : List Nat} {es : List (Nat × Nat)}
    (h : pack_loop fs c = (w, .ok es)) :
    w = body_of fs ∧ es = entries_of fs c ∧
      (∀ f ∈ fs, f.length ≤ U32_MAX) ∧
      (∀ p ∈ es, p.1 ≤ U32_MAX ∧ p.2 ≤ U32_MAX) := by
  induction fs generalizing c w es with
  | nil =>
    injection h with hw he
    injection he with hes
    subst hw hes
    simp [body_of, entries_of]
  | cons f rest ih =>
    rw [pack_loop] at h
    by_cases h1 : U32_MAX < f.length
    · rw [if_pos h1] at h
      injection h with hw he
      exact absurd he (by simp)
    · rw [if_neg h1] at h
      by_cases h2 : U32_MAX < c ∨ U32_MAX < (record_bytes f).length
      · rw [if_pos h2] at h
        injection h with hw he
        exact absurd he (by simp)
      · rw [if_neg h2] at h
        rcases hstep : pack_loop rest (c + (record_bytes f).length) with ⟨w2, res2⟩
        rw [hstep] at h
        cases res2 with
        | error e =>
          injection h with hw he
          exact absurd he (by simp [Except.map])
        | ok es2 =>
          simp only [Except.map] at h
          injection h with hw he
          injection he with hes
          obtain ⟨ihw, ihes, ihsz, ihb⟩ := ih hstep
          rw [record_bytes_length] at hstep hes h2 ihes
          refine ⟨?_, ?_, ?_, ?_⟩
          · rw [← hw, ihw, body_of]
          · rw [← hes, ihes, entries_of]
          · intro g hg
            rcases List.mem_cons.mp hg with hg | hg
            · subst hg
              omega
            · exact ihsz g hg
          · intro p hp
            rw [← hes] at hp
            rcases List.mem_cons.mp hp with hp | hp
            · subst hp
              constructor <;> simp <;> omega
            · exact ihb p hp

lemma pack_loop_error_cases {fs : List (List Nat)} {c : Nat} {w : List Nat} {e : PackError}
    (h : pack_loop fs c = (w, .error e)) :
    e = .fileTooLarge ∨ e = .offsetLengthOverflow := by
  induction fs generalizing c w with
  | nil =>
    injection h with hw he
    exact absurd he (by simp)
  | cons f rest ih =>
    rw [pack_loop] at h
    by_cases h1 : U32_MAX < f.length
    · rw [if_pos h1] at h
      injection h with hw he
      injection he with he2
      exact Or.inl he2.symm
    · rw [if_neg h1] at h
      by_cases h2 : U32_MAX < c ∨ U32_MAX < (record_bytes f).length
      · rw [if_pos h2] at h
        injection h with hw he
        injection he with he2
        exact Or.inr he2.symm
      · rw [if_neg h2] at h
        rcases hstep : pack_loop rest (c + (record_bytes f).length) with ⟨w2, res2⟩
        rw [hstep] at h
        cases res2 with
        | error e2 =>
          simp only [Except.map] at h
          injection h with hw he
          injection he with he2
          rw [he2] at hstep
          exact ih hstep
        | ok es2 =>
          simp only [Except.map] at h
          injection h with hw he
          exact absurd he (by simp)

lemma pack_loop_first_too_large {pre : List (List Nat)} {c : Nat} {es : List (Nat × Nat)}
    (h : pack_loop pre c = (body_of pre, .ok es))
    (f : List Nat) (post : List (List Nat)) (hf : U32_MAX < f.length) :
    pack_loop (pre ++ f :: post) c = (body_of pre, .error .fileTooLarge) := by
  induction pre generalizing c es with
  | nil =>
    show pack_loop (f :: post) c = _
    rw [pack_loop, if_pos hf]
    rfl
  | cons g pre ih =>
    rw [pack_loop] at h
    by_cases h1 : U32_MAX < g.length
    · rw [if_pos h1] at h
      injection h with hw he
      exact absurd he (by simp)
    · rw [if_neg h1] at h
      by_cases h2 : U32_MAX < c ∨ U32_MAX < (record_bytes g).length
      · rw [if_pos h2] at h
        injection h with hw he
        exact absurd he (by simp)
      · rw [if_neg h2] at h
        rcases hstep : pack_loop pre (c + (record_bytes g).length) with ⟨w2, res2⟩
        rw [hstep] at h
        cases res2 with
        | error e2 =>
          injection h with hw he
          exact absurd he (by simp [Except.map])
        | ok es2 =>
          simp only [Except.map] at h
          injection h with hw he
          injection he with hes
          have hw2 : w2 = body_of pre := by
            rw [body_of] at hw
            exact List.append_cancel_left hw
          show pack_loop (g :: (pre ++ f :: post)) c = _
          rw [pack_loop, if_neg h1, if_neg h2, ih (hw2 ▸ hstep)]
          simp [body_of, Except.map]


/-! Extraction of a well-formed packed record. -/

lemma decode_table_table_bytes {es : List (Nat × Nat)}
    (hb : ∀ p ∈ es, p.1 < 4294967296 ∧ p.2 < 4294967296) :
    decode_table (table_bytes es) = es := by
  induction es with
  | nil => rfl
  | cons p rest ih =>
    obtain ⟨o, l⟩ := p
    have ho : u32dec (u32le o) = o := u32dec_u32le (hb (o, l) (by simp)).1
    have hl : u32dec (u32le l) = l := u32dec_u32le (hb (o, l) (by simp)).2
    rw [table_bytes]
    simp only [u32le, List.cons_append, List.nil_append]
    rw [decode_table]
    simp only [u32le] at ho hl
    rw [ho, hl, ih (fun q hq => hb q (by simp [hq]))]

lemma extract_one_record {mm f : List Nat} {c : Nat}
    (hrec : slice mm c (32 + f.length) = record_bytes f)
    (hb : c + (32 + f.length) ≤ mm.length) :
    extract_one mm (c : Int) ((32 + f.length : Nat) : Int) = .ok f := by
  have h0 : slice mm c (32 + f.length) =
      S3V_MAGIC ++ (u32le 0x20 ++ (u32le f.length ++ (List.replicate 20 0 ++ f))) := by
    rw [hrec, record_bytes]
    simp [List.append_assoc]
  have hsplit1 := slice_eq_append hb h0
  rw [show (S3V_MAGIC : List Nat).length = 4 from rfl] at hsplit1
  obtain ⟨hmagic, hrest1⟩ := hsplit1
  rw [show 32 + f.length - 4 = 28 + f.length from by omega] at hrest1
  have hb1 : (c + 4) + (28 + f.length) ≤ mm.length := by omega
  have hsplit2 := slice_eq_append hb1 hrest1
  rw [show (u32le 0x20).length = 4 from rfl] at hsplit2
  obtain ⟨hfs, hrest2⟩ := hsplit2
  rw [show 28 + f.length - 4 = 24 + f.length from by omega,
      show c + 4 + 4 = c + 12 - 4 from by omega] at hrest2
  have hb2 : (c + 12 - 4) + (24 + f.length) ≤ mm.length := by omega
  have hsplit3 := slice_eq_append hb2 hrest2
  rw [show (u32le f.length).length = 4 from rfl] at hsplit3
  obtain ⟨hplen, hrest3⟩ := hsplit3
  rw [show 24 + f.length - 4 = 20 + f.length from by omega,
      show c + 12 - 4 + 4 = c + 12 from by omega] at hrest3
  have hb3 : (c + 12) + (20 + f.length) ≤ mm.length := by omega
  have hsplit4 := slice_eq_append hb3 hrest3
  rw [show (List.replicate 20 (0 : Nat)).length = 20 from by simp] at hsplit4
  obtain ⟨hzeros, hpayload⟩ := hsplit4
  rw [show 20 + f.length - 20 = f.length from by omega,
      show c + 12 + 20 = c + 32 from by omega] at hpayload
  rw [extract_one_eq]
  rw [if_neg (by omega)]
  simp only [Int.toNat_natCast]
  rw [if_neg (by simp [hmagic])]
  rw [hfs, u32dec_u32le (by norm_num)]
  rw [if_neg (by omega)]
  rw [show c + (32 + f.length) - (c + 0x20) = f.length from by omega]
  rw [hpayload]

lemma run_entries_ok (mm : List Nat) (fs : List (List Nat)) :
    ∀ (c i : Nat),
      slice mm c (body_of fs).length = body_of fs →
      c + (body_of fs).length ≤ mm.length →
      run_entries mm (entries_of fs c) i = .ok (extracted_pairs i fs) := by
  induction fs with
  | nil =>
    intro c i _ _
    rfl
  | cons f rest ih =>
    intro c i hs hb
    rw [body_of, List.length_append, record_bytes_length] at hs hb
    have hsplit := slice_eq_append (by omega) hs
    rw [record_bytes_length] at hsplit
    obtain ⟨hrec, hrest⟩ := hsplit
    rw [show 32 + f.length + (body_of rest).length - (32 + f.length) = (body_of rest).length
        from by omega] at hrest
    have hb1 : c + (32 + f.length) ≤ mm.length := by omega
    have hb2 : (c + (32 + f.length)) + (body_of rest).length ≤ mm.length := by omega
    rw [entries_of, run_entries, extract_one_record hrec hb1,
        ih (c + (32 + f.length)) (i + 1) hrest hb2]
    rfl

/-- Central round-trip lemma: a successful `pack` yields an archive that
`convert` extracts back to the input files, numbered from 1. -/
lemma convert_pack {infiles : List (List Nat)} {archive : List Nat}
    (h : pack infiles = .ok archive) :
    convert archive = .ok (extracted_pairs 1 infiles) := by
  rw [pack] at h
  rcases hpr : pack_run infiles with ⟨w, res⟩
  rw [hpr] at h
  cases res with
  | error e => exact absurd h (by simp)
  | ok u =>
    have harchw : archive = w := (Except.ok.inj h).symm
    rw [pack_run] at hpr
    by_cases hc : U32_MAX < infiles.length
    · rw [if_pos hc] at hpr
      injection hpr with hw hres
      exact absurd hres (by simp)
    · rw [if_neg hc] at hpr
      rcases hpl : pack_loop infiles (8 + 8 * infiles.length) with ⟨w2, res2⟩
      rw [hpl] at hpr
      cases res2 with
      | error e2 =>
        injection hpr with hw hres
        exact absurd hres (by simp)
      | ok es =>
        injection hpr with hw hres
        obtain ⟨hbody, hes, hsz, hcomp⟩ := pack_loop_ok hpl
        subst hbody
        have hes_len : es.length = infiles.length := by
          rw [hes, entries_of_length]
        have harch : archive =
            header_bytes infiles.length ++ table_bytes es ++ body_of infiles ++
              u32le END_MARKER := by
          rw [harchw, ← hw]
        have h1 : (header_bytes infiles.length).length = 8 := by
          simp [header_bytes, S3P_MAGIC, u32le]
        have h2 : (table_bytes es).length = 8 * infiles.length := by
          rw [table_bytes_length, hes_len]
        have h3 : (u32le END_MARKER).length = 4 := rfl
        have harchlen : archive.length =
            8 + 8 * infiles.length + ((body_of infiles).length + 4) := by
          rw [harch]
          simp only [List.length_append, h1, h2, h3]
          omega
        have hform1 : archive = ([] : List Nat) ++ S3P_MAGIC ++
            (u32le infiles.length ++ (table_bytes es ++ (body_of infiles ++ u32le END_MARKER))) := by
          rw [harch, header_bytes]
          simp [List.append_assoc]
        have hmagic : slice archive 0 4 = S3P_MAGIC := slice_exact _ hform1 rfl rfl
        have hform2 : archive = S3P_MAGIC ++ u32le infiles.length ++
            (table_bytes es ++ (body_of infiles ++ u32le END_MARKER)) := by
          rw [harch, header_bytes]
          simp [List.append_assoc]
        have hcount : slice archive 4 4 = u32le infiles.length := slice_exact _ hform2 rfl rfl
        have hdec : u32dec (slice archive 4 4) = infiles.length := by
          rw [hcount]
          exact u32dec_u32le (by simp [U32_MAX] at hc; omega)
        have hform3 : archive = header_bytes infiles.length ++ table_bytes es ++
            (body_of infiles ++ u32le END_MARKER) := by
          rw [harch]
          simp [List.append_assoc]
        have hreg : slice archive 8 (infiles.length * 8) = table_bytes es :=
          slice_exact _ hform3 h1.symm (by rw [h2]; omega)
        have hform4 : archive = (header_bytes infiles.length ++ table_bytes es) ++
            body_of infiles ++ u32le END_MARKER := by
          rw [harch]
        have hbody : slice archive (8 + 8 * infiles.length) (body_of infiles).length =
            body_of infiles :=
          slice_exact _ hform4 (by rw [List.length_append, h1, h2]) rfl
        rw [convert_eq]
        rw [if_neg (by omega)]
        rw [if_neg (by simp [hmagic])]
        rw [hdec]
        rw [if_neg (by omega)]
        rw [hreg]
        rw [decode_table_table_bytes (by
          intro p hp
          have := hcomp p hp
          simp [U32_MAX] at this
          omega)]
        rw [hes]
        exact run_entries_ok archive infiles (8 + 8 * infiles.length) 1 hbody (by omega)

/-! Claim theorems. -/

/-- C2: for every entry table record decoded against the mapped archive,
extraction fails with the out-of-bounds error when the length is smaller
than the 32-byte record-header size, or when offset + length exceeds the
archive size, or when the offset is negative; and whenever the bounds
guard passes, every byte position the entry processing reads (the 32-byte
record header at the offset and the payload range ending at
offset + length) lies within the archive. -/
theorem C2_bounds_check (mm : List Nat) (offset length : Int) :
    ((offset < 0 ∨ length < 32 ∨ (mm.length : Int) < offset + length) →
      extract_one mm offset length = .error .outOfBounds) ∧
    (¬(offset < 0 ∨ length < 32 ∨ (mm.length : Int) < offset + length) →
      offset.toNat + 32 ≤ mm.length ∧ offset.toNat + length.toNat ≤ mm.length) := by
  constructor
  · intro h
    rw [extract_one_eq, if_pos h]
  · intro h
    push_neg at h
    obtain ⟨h1, h2, h3⟩ := h
    omega

/-- C2 witness: a zero-length entry against an empty archive is rejected
as out of bounds, and a 32-byte entry over a 32-byte archive stays within
bounds. -/
theorem C2_bounds_check_witness :
    extract_one [] 0 0 = .error .outOfBounds ∧
      ((0 : Int).toNat + 32 ≤ (List.replicate 32 (0 : Nat)).length ∧
        (0 : Int).toNat + (32 : Int).toNat ≤ (List.replicate 32 (0 : Nat)).length) :=
  ⟨(C2_bounds_check [] 0 0).1 (by decide),
   (C2_bounds_check (List.replicate 32 0) 0 32).2 (by decide)⟩

/-- C5: for every bounds-valid payload record whose four bytes at the
record offset are not the S3V0 magic, decoding fails with the bad-magic
error carrying exactly those four bytes; and the magic check only runs
after the bounds check, since a bounds-violating record always yields
the out-of-bounds error instead. -/
theorem C5_record_magic (mm : List Nat) (offset length : Int) :
    (¬(offset < 0 ∨ length < 32 ∨ (mm.length : Int) < offset + length) →
      slice mm offset.toNat 4 ≠ S3V_MAGIC →
      extract_one mm offset length = .error (.badMagic (slice mm offset.toNat 4))) ∧
    ((offset < 0 ∨ length < 32 ∨ (mm.length : Int) < offset + length) →
      extract_one mm offset length = .error .outOfBounds) := by
  constructor
  · intro hin hbad
    rw [extract_one_eq, if_neg hin, if_pos hbad]
  · intro h
    rw [extract_one_eq, if_pos h]

/-- C5 witness: a 32-byte all-ones record is rejected with a bad-magic
error carrying its first four bytes, and a negative offset is rejected
as out of bounds even though the magic would also be wrong. -/
theorem C5_record_magic_witness :
    extract_one (List.replicate 32 1) 0 32 = .error (.badMagic (slice (List.replicate 32 1) (0 : Int).toNat 4)) ∧
      extract_one (List.replicate 32 1) (-1) 32 = .error .outOfBounds :=
  ⟨(C5_record_magic (List.replicate 32 1) 0 32).1 (by decide) (by decide),
   (C5_record_magic (List.replicate 32 1) (-1) 32).2 (by decide)⟩

/-- C6 counterexample: a 32-byte record with valid magic whose stored
header_size field is 0 is accepted by the extractor (the whole record
becomes the payload), so an accepted record's header_size need not be at
least the 32-byte record-header size. -/
theorem C6_counterexample :
    extract_one (S3V_MAGIC ++ u32le 0 ++ u32le 0 ++ List.replicate 20 0) 0 32 =
        .ok (S3V_MAGIC ++ u32le 0 ++ u32le 0 ++ List.replicate 20 0) ∧
      u32dec (slice (S3V_MAGIC ++ u32le 0 ++ u32le 0 ++ List.replicate 20 0) 4 4) = 0 :=
  ⟨rfl, rfl⟩

/-- C6 (amended): for every payload record the extractor accepts, the
table length is at least the 32-byte record-header size and the stored
header_size is at most the table length (the code checks
data_start ≤ data_end but never requires header_size ≥ 32). -/
theorem C6_accepted_invariant (mm : List Nat) (offset length : Int) (payload : List Nat)
    (h : extract_one mm offset length = .ok payload) :
    32 ≤ length ∧ (u32dec (slice mm (offset.toNat + 4) 4) : Int) ≤ length := by
  rw [extract_one_eq] at h
  by_cases h1 : offset < 0 ∨ length < 32 ∨ (mm.length : Int) < offset + length
  · rw [if_pos h1] at h
    cases h
  · rw [if_neg h1] at h
    by_cases h2 : slice mm offset.toNat 4 ≠ S3V_MAGIC
    · rw [if_pos h2] at h
      cases h
    · rw [if_neg h2] at h
      by_cases h3 : offset.toNat + length.toNat <
          offset.toNat + u32dec (slice mm (offset.toNat + 4) 4)
      · rw [if_pos h3] at h
        cases h
      · rw [if_neg h3] at h
        push_neg at h1
        obtain ⟨g1, g2, g3⟩ := h1
        omega

/-- C6 witness: the packed record of a 2-byte file is accepted with table
length 34, whose stored header_size 32 indeed satisfies both amended
bounds. -/
theorem C6_accepted_invariant_witness :
    (32 : Int) ≤ 34 ∧
      (u32dec (slice (record_bytes [9, 9]) ((0 : Int).toNat + 4) 4) : Int) ≤ 34 :=
  C6_accepted_invariant (record_bytes [9, 9]) 0 34 [9, 9] rfl

/-- C10: if extraction of an entry fails any validation check (bounds,
magic or layout), the call performs no filesystem effect: neither the
output directory creation nor the output file write happens, because both
sit after every validation check. -/
theorem C10_atomicity (mm : List Nat) (offset length : Int) (e : ExtractError)
    (h : (extract_one_run mm offset length).2 = .error e) :
    (extract_one_run mm offset length).1 = [] := by
  rw [extract_one_run_eq] at h ⊢
  by_cases h1 : offset < 0 ∨ length < 32 ∨ (mm.length : Int) < offset + length
  · rw [if_pos h1]
  · rw [if_neg h1] at h ⊢
    by_cases h2 : slice mm offset.toNat 4 ≠ S3V_MAGIC
    · rw [if_pos h2]
    · rw [if_neg h2] at h ⊢
      by_cases h3 : offset.toNat + length.toNat <
          offset.toNat + u32dec (slice mm (offset.toNat + 4) 4)
      · rw [if_pos h3]
      · rw [if_neg h3] at h
        exact absurd h (by simp)

/-- C10 witness: a bounds-failing entry performs no filesystem effect. -/
theorem C10_atomicity_witness : (extract_one_run [1, 2, 3] 0 0).1 = [] :=
  C10_atomicity [1, 2, 3] 0 0 .outOfBounds rfl

/-- C3: for every bounds-valid, magic-valid payload record, the decoder
reads the stored header_size field from the record bytes, computes
data_start = offset + header_size and data_end = offset + length, fails
with the invalid-layout error exactly when data_start > data_end, and
otherwise creates the output directory and writes exactly the bytes of
the half-open range from data_start to data_end to the entry's output
file. -/
theorem C3_payload_slice (mm : List Nat) (offset length : Int)
    (hin : ¬(offset < 0 ∨ length < 32 ∨ (mm.length : Int) < offset + length))
    (hmagic : slice mm offset.toNat 4 = S3V_MAGIC) :
    (offset.toNat + length.toNat <
        offset.toNat + u32dec (slice mm (offset.toNat + 4) 4) →
      extract_one_run mm offset length = ([], .error .invalidLayout)) ∧
    (offset.toNat + u32dec (slice mm (offset.toNat + 4) 4) ≤
        offset.toNat + length.toNat →
      extract_one_run mm offset length =
        ([.mkdirParents,
          .writeFile (slice mm (offset.toNat + u32dec (slice mm (offset.toNat + 4) 4))
            (offset.toNat + length.toNat -
              (offset.toNat + u32dec (slice mm (offset.toNat + 4) 4))))],
         .ok ())) := by
  constructor
  · intro hgt
    rw [extract_one_run_eq, if_neg hin, if_neg (by simp [hmagic]), if_pos hgt]
  · intro hle
    rw [extract_one_run_eq, if_neg hin, if_neg (by simp [hmagic]), if_neg (by omega)]

/-- C3 witness: the packed record of the 1-byte file [5] extracts its
payload byte, and a record claiming header_size 100 with table length 32
is rejected as invalid layout. -/
theorem C3_payload_slice_witness :
    extract_one_run (record_bytes [5]) 0 33 = ([.mkdirParents, .writeFile [5]], .ok ()) ∧
      extract_one_run (S3V_MAGIC ++ u32le 100 ++ u32le 0 ++ List.replicate 20 0) 0 32 =
        ([], .error .invalidLayout) :=
  ⟨(C3_payload_slice (record_bytes [5]) 0 33 (by decide) (by decide)).2 (by decide),
   (C3_payload_slice (S3V_MAGIC ++ u32le 100 ++ u32le 0 ++ List.replicate 20 0) 0 32
      (by decide) (by decide)).1 (by decide)⟩

/-- C4: extraction fails with the too-small truncation error when the
archive is shorter than the fixed 8-byte header, with the bad-magic error
when the first four bytes are not S3P0, and with the table truncation
error when the entry table of entry_count 8-byte records would extend
past the archive end; when all three checks pass it proceeds to the
per-entry extraction loop. -/
theorem C4_archive_validation (mm : List Nat) :
    (mm.length < 8 → convert mm = .error .tooSmall) ∧
    (8 ≤ mm.length → slice mm 0 4 ≠ S3P_MAGIC → convert mm = .error .badArchiveMagic) ∧
    (8 ≤ mm.length → slice mm 0 4 = S3P_MAGIC →
      mm.length < 8 + u32dec (slice mm 4 4) * 8 →
      convert mm = .error .entryTableTruncated) ∧
    (8 ≤ mm.length → slice mm 0 4 = S3P_MAGIC →
      8 + u32dec (slice mm 4 4) * 8 ≤ mm.length →
      convert mm = run_entries mm (decode_table (slice mm 8 (u32dec (slice mm 4 4) * 8))) 1) := by
  refine ⟨?_, ?_, ?_, ?_⟩
  · intro h
    rw [convert_eq, if_pos h]
  · intro h hbad
    rw [convert_eq, if_neg (by omega), if_pos hbad]
  · intro h hmag htab
    rw [convert_eq, if_neg (by omega), if_neg (by simp [hmag]), if_pos htab]
  · intro h hmag htab
    rw [convert_eq, if_neg (by omega), if_neg (by simp [hmag]), if_neg (by omega)]

/-- C4 witness: a 1-byte file is too small; 8 zero bytes have a bad
archive magic; a header claiming one entry with no table is truncated;
and a correct empty header proceeds to the entry loop. -/
theorem C4_archive_validation_witness :
    convert [0] = .error .tooSmall ∧
      convert (List.replicate 8 0) = .error .badArchiveMagic ∧
      convert (S3P_MAGIC ++ u32le 1) = .error .entryTableTruncated ∧
      convert (S3P_MAGIC ++ u32le 0) =
        run_entries (S3P_MAGIC ++ u32le 0)
          (decode_table (slice (S3P_MAGIC ++ u32le 0) 8
            (u32dec (slice (S3P_MAGIC ++ u32le 0) 4 4) * 8))) 1 :=
  ⟨(C4_archive_validation [0]).1 (by decide),
   (C4_archive_validation (List.replicate 8 0)).2.1 (by decide) (by decide),
   (C4_archive_validation (S3P_MAGIC ++ u32le 1)).2.2.1 (by decide) (by decide) (by decide),
   (C4_archive_validation (S3P_MAGIC ++ u32le 0)).2.2.2 (by decide) (by decide) (by decide)⟩

/-- C8: extracting an archive whose header has the correct magic and
entry count 0, and whose total size is at least the 8-byte header,
succeeds and produces zero output files. -/
theorem C8_empty_archive (mm : List Nat)
    (hlen : 8 ≤ mm.length) (hmag : slice mm 0 4 = S3P_MAGIC)
    (hcount : u32dec (slice mm 4 4) = 0) :
    convert mm = .ok [] := by
  rw [convert_eq, if_neg (by omega), if_neg (by simp [hmag]), hcount, if_neg (by omega)]
  rfl

/-- C8 witness: the empty archive written by the packer (header with
count 0 followed by the end marker) extracts to no output files. -/
theorem C8_empty_archive_witness : convert (header_bytes 0 ++ u32le END_MARKER) = .ok [] :=
  C8_empty_archive (header_bytes 0 ++ u32le END_MARKER) (by decide) (by decide) (by decide)

/-- C1: round-trip — whenever packing an ordered list of input files
succeeds with some archive, extracting that archive succeeds and yields
one output file per input, numbered in order from 0001, whose byte
contents are exactly the corresponding input files in the same order. -/
theorem C1_round_trip (infiles : List (List Nat)) (archive : List Nat)
    (h : pack infiles = .ok archive) :
    convert archive = .ok (extracted_pairs 1 infiles) ∧
      (extracted_pairs 1 infiles).map Prod.snd = infiles :=
  ⟨convert_pack h, extracted_pairs_snd infiles 1⟩

/-- C1 witness: the archive packed from the single file [1, 2, 3]
extracts back to exactly that file. -/
theorem C1_round_trip_witness :
    convert (header_bytes 1 ++ table_bytes [(16, 35)] ++ record_bytes [1, 2, 3] ++
        u32le END_MARKER) = .ok (extracted_pairs 1 [[1, 2, 3]]) ∧
      (extracted_pairs 1 [[1, 2, 3]]).map Prod.snd = [[1, 2, 3]] :=
  C1_round_trip [[1, 2, 3]]
    (header_bytes 1 ++ table_bytes [(16, 35)] ++ record_bytes [1, 2, 3] ++ u32le END_MARKER)
    rfl

/-- C7: packing fails whenever any single source file's size, or any
computed entry offset or length, exceeds 0xFFFFFFFF, with one of the two
size-limit errors; and when the first offending file is too large, the
pack run aborts with the file-too-large error before writing any byte of
that entry's payload record — the output file holds only the header, the
zero-filled placeholder table and the records of the earlier files. -/
theorem C7_size_limit :
    (∀ infiles : List (List Nat), infiles.length ≤ U32_MAX →
      ((∃ f ∈ infiles, U32_MAX < f.length) ∨
        (∃ p ∈ entries_of infiles (8 + 8 * infiles.length), U32_MAX < p.1 ∨ U32_MAX < p.2)) →
      pack infiles = .error .fileTooLarge ∨ pack infiles = .error .offsetLengthOverflow) ∧
    (∀ (pre : List (List Nat)) (f : List Nat) (post : List (List Nat)) (es : List (Nat × Nat)),
      (pre ++ f :: post).length ≤ U32_MAX →
      pack_loop pre (8 + 8 * (pre ++ f :: post).length) = (body_of pre, .ok es) →
      U32_MAX < f.length →
      pack_run (pre ++ f :: post) =
        (header_bytes (pre ++ f :: post).length ++
          List.replicate (8 * (pre ++ f :: post).length) 0 ++ body_of pre,
         .error .fileTooLarge)) := by
  constructor
  · intro infiles hc hbad
    rcases hpl : pack_loop infiles (8 + 8 * infiles.length) with ⟨w, res⟩
    cases res with
    | ok es =>
      exfalso
      obtain ⟨hbody, hes, hsz, hcomp⟩ := pack_loop_ok hpl
      rcases hbad with ⟨f, hf, hlt⟩ | ⟨p, hp, hlt⟩
      · exact absurd (hsz f hf) (by omega)
      · rw [← hes] at hp
        rcases hlt with hlt | hlt
        · exact absurd (hcomp p hp).1 (by omega)
        · exact absurd (hcomp p hp).2 (by omega)
    | error e =>
      have he := pack_loop_error_cases hpl
      unfold pack pack_run
      rw [if_neg (by omega), hpl]
      rcases he with he | he
      · left
        rw [he]
      · right
        rw [he]
  · intro pre f post es hc hok hf
    have hstop := pack_loop_first_too_large hok f post hf
    unfold pack_run
    rw [if_neg (by omega), hstop]

/-- C7 witness: a synthetic file of 0x100000000 bytes cannot be packed,
and packing it as the only input leaves just the 8-byte header and the
8-byte zeroed placeholder table in the output file. -/
theorem C7_size_limit_witness :
    (pack [List.replicate 4294967296 0] = .error .fileTooLarge ∨
      pack [List.replicate 4294967296 0] = .error .offsetLengthOverflow) ∧
      pack_run [List.replicate 4294967296 0] =
        (header_bytes 1 ++ List.replicate 8 0 ++ body_of [], .error .fileTooLarge) :=
  ⟨C7_size_limit.1 [List.replicate 4294967296 0] (by decide)
      (Or.inl ⟨List.replicate 4294967296 0, List.mem_cons_self _ _,
        by rw [List.length_replicate]; decide⟩),
   C7_size_limit.2 [] (List.replicate 4294967296 0) [] [] (by decide) rfl
      (by rw [List.length_replicate]; decide)⟩

/-- C9: packing two files of sizes 3 and 5 produces an archive that
starts with the S3P0 magic and the little-endian count 2, whose entry
table region is exactly the two 8-byte rows (24, 35) and (59, 37), and
whose extraction yields the files 0001.wav and 0002.wav with the two
input contents in order. -/
theorem C9_scenario (a b : List Nat) (ha : a.length = 3) (hb : b.length = 5) :
    pack [a, b] = .ok (header_bytes 2 ++ table_bytes [(24, 35), (59, 37)] ++
        (record_bytes a ++ record_bytes b) ++ u32le END_MARKER) ∧
    slice (header_bytes 2 ++ table_bytes [(24, 35), (59, 37)] ++
        (record_bytes a ++ record_bytes b) ++ u32le END_MARKER) 0 8 =
      S3P_MAGIC ++ [2, 0, 0, 0] ∧
    slice (header_bytes 2 ++ table_bytes [(24, 35), (59, 37)] ++
        (record_bytes a ++ record_bytes b) ++ u32le END_MARKER) 8 16 =
      table_bytes [(24, 35), (59, 37)] ∧
    (table_bytes [(24, 35), (59, 37)]).length = 2 * 8 ∧
    convert (header_bytes 2 ++ table_bytes [(24, 35), (59, 37)] ++
        (record_bytes a ++ record_bytes b) ++ u32le END_MARKER) =
      .ok [("0001.wav", a), ("0002.wav", b)] := by
  have hla : (record_bytes a).length = 35 := by rw [record_bytes_length, ha]
  have hlb : (record_bytes b).length = 37 := by rw [record_bytes_length, hb]
  have hloop : pack_loop [a, b] 24 =
      (record_bytes a ++ (record_bytes b ++ []), .ok [(24, 35), (59, 37)]) := by
    rw [pack_loop]
    rw [if_neg (show ¬(U32_MAX < a.length) by rw [ha]; decide)]
    rw [if_neg (show ¬(U32_MAX < 24 ∨ U32_MAX < (record_bytes a).length) by rw [hla]; decide)]
    rw [hla]
    rw [pack_loop]
    rw [if_neg (show ¬(U32_MAX < b.length) by rw [hb]; decide)]
    rw [if_neg (show ¬(U32_MAX < 24 + 35 ∨ U32_MAX < (record_bytes b).length) by
      rw [hlb]; decide)]
    rw [hlb]
    rfl
  have hrun : pack_run [a, b] =
      (header_bytes 2 ++ table_bytes [(24, 35), (59, 37)] ++
        (record_bytes a ++ (record_bytes b ++ [])) ++ u32le END_MARKER, .ok ()) := by
    unfold pack_run
    rw [if_neg (show ¬(U32_MAX < ([a, b] : List (List Nat)).length) by simp [U32_MAX])]
    rw [show (8 : Nat) + 8 * ([a, b] : List (List Nat)).length = 24 from rfl]
    rw [hloop]
    rfl
  rw [List.append_nil] at hrun
  have hpack : pack [a, b] = .ok (header_bytes 2 ++ table_bytes [(24, 35), (59, 37)] ++
      (record_bytes a ++ record_bytes b) ++ u32le END_MARKER) := by
    unfold pack
    rw [hrun]
  have hform1 : header_bytes 2 ++ table_bytes [(24, 35), (59, 37)] ++
      (record_bytes a ++ record_bytes b) ++ u32le END_MARKER =
      ([] : List Nat) ++ header_bytes 2 ++
        (table_bytes [(24, 35), (59, 37)] ++
          ((record_bytes a ++ record_bytes b) ++ u32le END_MARKER)) := by
    simp [List.append_assoc]
  have hform2 : header_bytes 2 ++ table_bytes [(24, 35), (59, 37)] ++
      (record_bytes a ++ record_bytes b) ++ u32le END_MARKER =
      header_bytes 2 ++ table_bytes [(24, 35), (59, 37)] ++
        ((record_bytes a ++ record_bytes b) ++ u32le END_MARKER) := by
    simp [List.append_assoc]
  have e1 : entry_name 1 = "0001.wav" := by decide
  have e2 : entry_name 2 = "0002.wav" := by decide
  have hnames : extracted_pairs 1 [a, b] = [("0001.wav", a), ("0002.wav", b)] := by
    rw [extracted_pairs, extracted_pairs, extracted_pairs, e1, e2]
  refine ⟨hpack, slice_exact _ hform1 rfl rfl, slice_exact _ hform2 rfl rfl, rfl, ?_⟩
  rw [convert_pack hpack, hnames]

/-- C9 witness: the scenario instantiated with the concrete 3-byte file
[10, 20, 30] and 5-byte file [40, 50, 60, 70, 80]. -/
theorem C9_scenario_witness :
    pack [[10, 20, 30], [40, 50, 60, 70, 80]] =
        .ok (header_bytes 2 ++ table_bytes [(24, 35), (59, 37)] ++
          (record_bytes [10, 20, 30] ++ record_bytes [40, 50, 60, 70, 80]) ++
          u32le END_MARKER) ∧
      slice (header_bytes 2 ++ table_bytes [(24, 35), (59, 37)] ++
          (record_bytes [10, 20, 30] ++ record_bytes [40, 50, 60, 70, 80]) ++
          u32le END_MARKER) 0 8 = S3P_MAGIC ++ [2, 0, 0, 0] ∧
      slice (header_bytes 2 ++ table_bytes [(24, 35), (59, 37)] ++
          (record_bytes [10, 20, 30] ++ record_bytes [40, 50, 60, 70, 80]) ++
          u32le END_MARKER) 8 16 = table_bytes [(24, 35), (59, 37)] ∧
      (table_bytes [(24, 35), (59, 37)]).length = 2 * 8 ∧
      convert (header_bytes 2 ++ table_bytes [(24, 35), (59, 37)] ++
          (record_bytes [10, 20, 30] ++ record_bytes [40, 50, 60, 70, 80]) ++
          u32le END_MARKER) =
        .ok [("0001.wav", [10, 20, 30]), ("0002.wav", [40, 50, 60, 70, 80])] :=
  C9_scenario [10, 20, 30] [40, 50, 60, 70, 80] rfl rfl

end S3P
